import Mathlib

/-!
Shallow embedding of the transfer Lambda in `ch06/lambda/src/index.ts`
(the "Transfer Executor with OCC Retry Loop") and of the connection cache
shared with the chapter-04 variant of the same function.

Modelling decisions
* Account balances live in a PostgreSQL `DECIMAL` column and all in-database
  arithmetic (`balance = balance - $amount`, `balance = balance + $amount`)
  is exact decimal arithmetic; decimals are a subset of the rationals, so the
  datastore state is a list of `(id, balance : Rat)` rows.
* `request.amount` is the numeric value of the decimal string the caller
  supplies (the driver passes the string to the datastore, which casts it
  to `DECIMAL`).
* JavaScript `parseFloat` (applied by `executeTransfer` to the decimal
  string the driver returns for the `RETURNING balance` row) converts the
  exact decimal to the nearest IEEE-754 binary64 value, ties to even.  It is
  modelled by `parseFloatR`, binary64 round-to-nearest-even with an
  unbounded exponent range: faithful for every value in the binary64 normal
  finite range, which covers all monetary values; overflow to `Infinity` and
  subnormal underflow are not modelled.
* Each thrown JavaScript error is one constructor of `JsError`; errors
  raised by the `postgres` driver carry their `code` property.
* One retry-loop iteration ("attempt") runs against an `AttemptEnv`: the
  datastore snapshot the transaction sees (concurrent writers may change it
  between attempts) plus the errors, if any, that the datastore raises for
  each statement and for the commit.  The unbounded `while (true)` loop is
  embedded with explicit fuel: `none` means the loop has not terminated
  within the given fuel.
* Wall-clock timing (`transaction_time`) is real time and is not modelled.
-/

/-- The errors the Lambda can raise or observe.  One constructor per
`throw new Error(...)` site in `index.ts`, plus driver-raised errors. -/
inductive JsError where
  /-- `new Error('Payer account not found')` in `executeTransfer`. -/
  | payerNotFound
  /-- `new Error(\x7bInsufficient balance: $\x7bpayerBalance\x7d\x7d)` in
  `executeTransfer`; carries the `parseFloat`-converted payer balance that
  is interpolated into the message. -/
  | insufficientBalance (balance : Rat)
  /-- `new Error('Payee account not found')` in `executeTransfer`. -/
  | payeeNotFound
  /-- `new Error('Payer and payee must be different accounts')` in `handler`. -/
  | invalidRequest
  /-- An error raised by the `postgres` driver (statement or commit),
  carrying its `code` property: `'40001'` for a serialization failure,
  other codes for connectivity and further datastore errors.  The plain
  `Error` objects above have no `code` property. -/
  | postgres (code : String)
deriving DecidableEq, Repr

/-- `isOccError` from `index.ts`: `error?.code === '40001'`.  Only driver
errors have a `code` property; `'40001'` is the PostgreSQL SQLSTATE for
`serialization_failure`. -/
def isOccError (e : JsError) : Bool :=
  match e with
  | .postgres code => code = "40001"
  | _ => false

/-- Account identifiers (UUID strings in the chapter-06 variant). -/
abbrev AccountId := String

/-- The `accounts2` table: one `(id, balance)` row per account. -/
abbrev Db := List (AccountId × Rat)

/-- The balance stored for `id`, if a row with that id exists. -/
def lookupBal : Db → AccountId → Option Rat
  | [], _ => none
  | (i, b) :: rest, id => if i = id then some b else lookupBal rest id

/-- `id` is a primary key: no two rows share an id. -/
def Db.wf (db : Db) : Prop := (db.map Prod.fst).Nodup

/-- `UPDATE accounts2 SET balance = f(balance) WHERE id = $id RETURNING balance`:
updates every row whose id matches and returns the list of new balances of
the affected rows (so its length is the affected-row `count`). -/
def updateWhere (db : Db) (id : AccountId) (f : Rat → Rat) : Db × List Rat :=
  match db with
  | [] => ([], [])
  | (i, b) :: rest =>
    let r := updateWhere rest id f
    if i = id then ((i, f b) :: r.1, f b :: r.2)
    else ((i, b) :: r.1, r.2)

/-- Fuel-driven floor-log2 worker; `natLog2F fuel n` equals `⌊log2 n⌋`
whenever `1 ≤ n ≤ fuel`. -/
def natLog2F : Nat → Nat → Nat
  | 0, _ => 0
  | fuel + 1, n => if 2 ≤ n then natLog2F fuel (n / 2) + 1 else 0

/-- `⌊log2 n⌋` for `n ≥ 1` (junk value `0` at `n = 0`). -/
def natLog2 (n : Nat) : Nat := natLog2F n n

/-- `⌊log2 q⌋` for a positive rational `q = n / d`: compare `2^(log2 n)`
with `q` to decide between `log2 n - log2 d` and `log2 n - log2 d - 1`. -/
def ratLog2 (q : Rat) : Int :=
  let n := q.num.natAbs
  let d := q.den
  let a := natLog2 n
  let b := natLog2 d
  if 2 ^ a * d ≤ 2 ^ b * n then (a : Int) - b else (a : Int) - b - 1

/-- Round a rational to the nearest integer, ties to even. -/
def rne (m : Rat) : Int :=
  let fl := ⌊m⌋
  if m - fl < 1 / 2 then fl
  else if 1 / 2 < m - fl then fl + 1
  else if 2 ∣ fl then fl else fl + 1

/-- JavaScript `parseFloat` applied to the exact decimal string of `q`:
the nearest binary64 value (53 significand bits, round half to even),
modelled with unbounded exponent range (see the header comment). -/
def parseFloatR (q : Rat) : Rat :=
  if q = 0 then 0
  else
    let aq : Rat := if q < 0 then -q else q
    let e : Int := ratLog2 aq
    let m : Rat := aq * (2 : Rat) ^ (52 - e)
    let rounded : Rat := (rne m : Rat) * (2 : Rat) ^ (e - 52)
    if q < 0 then -rounded else rounded

/-- The invocation payload (`interface Request` in `index.ts`); `amount` is
the numeric value of the decimal string. -/
structure Request where
  payer_id : AccountId
  payee_id : AccountId
  amount : Rat
deriving DecidableEq, Repr

/-- The environment one retry attempt runs against: the datastore snapshot
its transaction sees, and the errors, if any, that the datastore raises for
the payer statement, the payee statement, and the commit. -/
structure AttemptEnv where
  db : Db
  stmt1Error : Option JsError := none
  stmt2Error : Option JsError := none
  commitError : Option JsError := none
deriving DecidableEq, Repr

/-- `executeTransfer(sql, request)` from `index.ts`, run inside one
transaction: decrement the payer row returning the new balance, fail when
no row matched; `parseFloat` the returned balance and fail when it is
negative; increment the payee row and fail unless exactly one row was
affected; otherwise return the updated datastore (not yet committed) and
the value of `payerBalance` (whose `toString` becomes the return value). -/
def executeTransfer (env : AttemptEnv) (request : Request) :
    Except JsError (Db × Rat) :=
  match env.stmt1Error with
  | some e => .error e
  | none =>
    let payer := updateWhere env.db request.payer_id (fun b => b - request.amount)
    match payer.2 with
    | [] => .error .payerNotFound
    | pb :: _ =>
      let payerBalance := parseFloatR pb
      if payerBalance < 0 then .error (.insufficientBalance payerBalance)
      else
        match env.stmt2Error with
        | some e => .error e
        | none =>
          let payee := updateWhere payer.1 request.payee_id (fun b => b + request.amount)
          if payee.2.length ≠ 1 then .error .payeeNotFound
          else .ok (payee.1, payerBalance)

/-- One iteration of the retry loop: `client.begin(async (sql) =>
executeTransfer(sql, event))`.  If the transaction body throws, the
transaction is rolled back and nothing is committed; otherwise the commit
itself may fail, also rolling back; on success the updated rows are
committed and the body's return value is produced. -/
def runAttempt (env : AttemptEnv) (request : Request) :
    Except JsError (Db × Rat) :=
  match executeTransfer env request with
  | .error e => .error e
  | .ok r =>
    match env.commitError with
    | some e => .error e
    | none => .ok r

/-- The `while (true)` retry loop of `handler`, with explicit fuel.
`attempts` is the counter incremented at the top of every iteration;
attempt number `attempts + 1` runs against `envs attempts`.  The loop
leaves with the committed result, or with the first error whose
`isOccError` classification is false; an OCC error makes it `continue`.
`none` means the fuel ran out before the loop left (the source loop has no
iteration cap). -/
def handlerLoop (envs : Nat → AttemptEnv) (request : Request) :
    Nat → Nat → Option (Except JsError (Db × Rat) × Nat)
  | 0, _ => none
  | fuel + 1, attempts =>
    match runAttempt (envs attempts) request with
    | .ok r => some (.ok r, attempts + 1)
    | .error e =>
      if isOccError e then handlerLoop envs request fuel (attempts + 1)
      else some (.error e, attempts + 1)

/-- The success payload (`interface Response`); `payer_balance` is the
numeric value the response string denotes (JavaScript `Number.toString`
round-trips the binary64 value exactly), `transaction_time` is wall-clock
and not modelled. -/
structure Response where
  payer_balance : Rat
  attempts : Nat
deriving DecidableEq, Repr

/-- Everything observable about one `handler` invocation: the returned
payload or thrown error, whether `getConnection` was reached, how many
transaction attempts were begun, and the datastore state committed by the
successful attempt, if any. -/
structure HandlerOutput where
  result : Except JsError Response
  connectionObtained : Bool
  attemptsMade : Nat
  committed : Option Db
deriving Repr

/-- `handler` from `index.ts`: reject `payer_id === payee_id` before any
datastore access, otherwise obtain the connection and run the retry loop,
packaging the committed balance and the attempt count (the outer
`try/catch` logs and rethrows, changing nothing observable). -/
def handler (envs : Nat → AttemptEnv) (event : Request) (fuel : Nat) :
    Option HandlerOutput :=
  if event.payer_id = event.payee_id then
    some { result := .error .invalidRequest, connectionObtained := false,
           attemptsMade := 0, committed := none }
  else
    match handlerLoop envs event fuel 0 with
    | none => none
    | some (.ok r, a) =>
      some { result := .ok { payer_balance := r.2, attempts := a },
             connectionObtained := true, attemptsMade := a, committed := some r.1 }
    | some (.error e, a) =>
      some { result := .error e, connectionObtained := true,
             attemptsMade := a, committed := none }

/-- The module-level mutable state of `index.ts`: the cached `postgres`
client (`let cachedClient: Sql | null = null`) plus an instrumentation
counter of how many client objects have been constructed; a fresh handle is
identified by the value of the counter at its creation. -/
structure ProcState where
  cachedClient : Option Nat
  clientsCreated : Nat
deriving DecidableEq, Repr

/-- The state a process starts in: no cached client, no client created. -/
def initialProcState : ProcState := { cachedClient := none, clientsCreated := 0 }

/-- `getConnection` from `index.ts` (identical in the chapter-04 variant):
return the cached client if there is one, otherwise construct a `postgres`
client (installing the token-refreshing `password` callback), cache it and
return it. -/
def getConnection (s : ProcState) : Nat × ProcState :=
  match s.cachedClient with
  | some c => (c, s)
  | none =>
    (s.clientsCreated,
     { cachedClient := some s.clientsCreated,
       clientsCreated := s.clientsCreated + 1 })

/-- `n` successive `getConnection` calls: the list of returned handles and
the final module state. -/
def getConnectionRuns : Nat → ProcState → List Nat × ProcState
  | 0, s => ([], s)
  | n + 1, s =>
    let r := getConnection s
    let rest := getConnectionRuns n r.2
    (r.1 :: rest.1, rest.2)

/-- Attempt environments for the statement-level-conflict scenario: the
first attempt's payer statement raises a serialization failure (SQLSTATE
40001), every later attempt runs cleanly against the two-account table
holding 100 for account `a` and 50 for account `b`. -/
def cexEnvs : Nat → AttemptEnv := fun i =>
  if i = 0 then
    { db := [("a", 100), ("b", 50)], stmt1Error := some (.postgres "40001") }
  else { db := [("a", 100), ("b", 50)] }

/-- Attempt environments for the uncontended scenario: every attempt runs
cleanly against the two-account table holding 100 for `a` and 50 for `b`. -/
def okEnvs : Nat → AttemptEnv := fun _ => { db := [("a", 100), ("b", 50)] }

/-- The handler output of the uncontended `a` to `b` transfer of 10. -/
def okOut : HandlerOutput :=
  { result := .ok { payer_balance := parseFloatR 90, attempts := 1 },
    connectionObtained := true, attemptsMade := 1,
    committed := some [("a", 90), ("b", 60)] }

/-- The response payload inside `okOut`. -/
def okResp : Response := { payer_balance := parseFloatR 90, attempts := 1 }

theorem natLog2F_spec (fuel : Nat) : ∀ n : Nat, 1 ≤ n → n ≤ fuel →
    2 ^ natLog2F fuel n ≤ n ∧ n < 2 ^ (natLog2F fuel n + 1) := by
  induction fuel with
  | zero => intro n h1 h2; omega
  | succ fuel ih =>
    intro n h1 h2
    by_cases h : 2 ≤ n
    · have hrec := ih (n / 2) (by omega) (by omega)
      simp only [natLog2F, if_pos h]
      constructor
      · calc 2 ^ (natLog2F fuel (n / 2) + 1) = 2 * 2 ^ natLog2F fuel (n / 2) := by ring
        _ ≤ 2 * (n / 2) := by omega
        _ ≤ n := by omega
      · calc n < 2 * (n / 2) + 2 := by omega
        _ ≤ 2 * 2 ^ (natLog2F fuel (n / 2) + 1) := by omega
        _ = 2 ^ (natLog2F fuel (n / 2) + 1 + 1) := by ring
    · simp only [natLog2F, if_neg h]
      omega

theorem natLog2_spec (n : Nat) (h1 : 1 ≤ n) :
    2 ^ natLog2 n ≤ n ∧ n < 2 ^ (natLog2 n + 1) :=
  natLog2F_spec n n h1 le_rfl

theorem ratLog2_le (q : Rat) (hq : 0 < q) : (2 : Rat) ^ ratLog2 q ≤ q := by
  have hnum : 0 < q.num := Rat.num_pos.mpr hq
  have hn1 : 1 ≤ q.num.natAbs := by omega
  have hd1 : 1 ≤ q.den := q.den_pos
  obtain ⟨hnl, hnu⟩ := natLog2_spec q.num.natAbs hn1
  obtain ⟨hdl, hdu⟩ := natLog2_spec q.den hd1
  have hqeq : q = (q.num.natAbs : Rat) / (q.den : Rat) := by
    rw [Int.cast_natAbs]
    rw [abs_of_pos (by exact_mod_cast hnum)]
    exact (Rat.num_div_den q).symm
  have hdpos : (0 : Rat) < (q.den : Rat) := by exact_mod_cast hd1
  simp only [ratLog2]
  set a := natLog2 q.num.natAbs with ha
  set b := natLog2 q.den with hb
  by_cases hc : 2 ^ a * q.den ≤ 2 ^ b * q.num.natAbs
  · rw [if_pos hc]
    have hz : (2 : Rat) ^ ((a : Int) - (b : Int)) =
        (2 : Rat) ^ (a : Nat) / (2 : Rat) ^ (b : Nat) := by
      rw [zpow_sub₀ (by norm_num : (2 : Rat) ≠ 0), zpow_natCast, zpow_natCast]
    rw [hz, hqeq, div_le_div_iff₀ (by positivity) hdpos]
    have hc' := (Nat.cast_le (α := Rat)).mpr hc
    push_cast at hc'
    linarith
  · rw [if_neg hc]
    have hz : (2 : Rat) ^ ((a : Int) - (b : Int) - 1) =
        (2 : Rat) ^ (a : Nat) / ((2 : Rat) ^ (b : Nat) * 2) := by
      rw [show (a : Int) - (b : Int) - 1 = (a : Int) - ((b : Int) + 1) by ring]
      rw [zpow_sub₀ (by norm_num : (2 : Rat) ≠ 0)]
      rw [zpow_add_one₀ (by norm_num : (2 : Rat) ≠ 0), zpow_natCast, zpow_natCast]
    rw [hz, hqeq, div_le_div_iff₀ (by positivity) hdpos]
    have hdub : (q.den : Rat) < (2 : Rat) ^ (b : Nat) * 2 := by
      have h2 : ((2 ^ (b + 1) : Nat) : Rat) = (2 : Rat) ^ (b : Nat) * 2 := by
        push_cast [pow_succ]
        ring
      rw [← h2]
      exact_mod_cast hdu
    have hnlb : (2 : Rat) ^ (a : Nat) ≤ (q.num.natAbs : Rat) := by exact_mod_cast hnl
    nlinarith [pow_pos (show (0 : Rat) < 2 by norm_num) a,
               pow_pos (show (0 : Rat) < 2 by norm_num) b]

theorem rne_ge_one (m : Rat) (hm : 1 ≤ m) : 1 ≤ rne m := by
  have hfl : 1 ≤ ⌊m⌋ := by
    rw [Int.le_floor]
    exact_mod_cast hm
  simp only [rne]
  split_ifs <;> omega

theorem rne_intCast (z : Int) : rne (z : Rat) = z := by
  simp only [rne, Int.floor_intCast, sub_self]
  norm_num

theorem parseFloatR_core_pos (aq : Rat) (h : 0 < aq) :
    0 < (rne (aq * (2 : Rat) ^ ((52 : Int) - ratLog2 aq)) : Rat) *
      (2 : Rat) ^ (ratLog2 aq - 52) := by
  have hle := ratLog2_le aq h
  set e := ratLog2 aq with he
  have h52 : (1 : Rat) ≤ (2 : Rat) ^ (52 : Int) := by
    rw [show ((52 : Int)) = ((52 : Nat) : Int) by norm_num, zpow_natCast]
    exact one_le_pow₀ (by norm_num)
  have hsplit : (2 : Rat) ^ e * (2 : Rat) ^ ((52 : Int) - e) = (2 : Rat) ^ (52 : Int) := by
    rw [← zpow_add₀ (by norm_num : (2 : Rat) ≠ 0)]
    ring_nf
  have hp1 : (0 : Rat) < (2 : Rat) ^ ((52 : Int) - e) := zpow_pos (by norm_num) _
  have hm : (1 : Rat) ≤ aq * (2 : Rat) ^ ((52 : Int) - e) := by
    calc (1 : Rat) ≤ (2 : Rat) ^ (52 : Int) := h52
      _ = (2 : Rat) ^ e * (2 : Rat) ^ ((52 : Int) - e) := hsplit.symm
      _ ≤ aq * (2 : Rat) ^ ((52 : Int) - e) := mul_le_mul_of_nonneg_right hle hp1.le
  have hr : (1 : Rat) ≤ (rne (aq * (2 : Rat) ^ ((52 : Int) - e)) : Rat) := by
    exact_mod_cast rne_ge_one _ hm
  have hp2 : (0 : Rat) < (2 : Rat) ^ (e - 52) := zpow_pos (by norm_num) _
  exact mul_pos (by linarith) hp2

theorem parseFloatR_zero : parseFloatR 0 = 0 := by
  simp [parseFloatR]

theorem parseFloatR_pos (q : Rat) (hq : 0 < q) : 0 < parseFloatR q := by
  have h0 : q ≠ 0 := ne_of_gt hq
  have h1 : ¬(q < 0) := not_lt.mpr hq.le
  simp only [parseFloatR, if_neg h0, if_neg h1]
  exact parseFloatR_core_pos q hq

theorem parseFloatR_neg (q : Rat) (hq : q < 0) : parseFloatR q < 0 := by
  have h0 : q ≠ 0 := ne_of_lt hq
  simp only [parseFloatR, if_neg h0, if_pos hq]
  have := parseFloatR_core_pos (-q) (by linarith)
  linarith

theorem parseFloatR_neg_iff (q : Rat) : parseFloatR q < 0 ↔ q < 0 := by
  constructor
  · intro h
    by_contra hn
    push_neg at hn
    rcases eq_or_lt_of_le hn with h0 | h0
    · rw [← h0, parseFloatR_zero] at h
      exact absurd h (by norm_num)
    · exact absurd h (not_lt.mpr (parseFloatR_pos q h0).le)
  · exact parseFloatR_neg q

theorem parseFloatR_natCast (n : Nat) (h1 : 1 ≤ n) (h2 : n < 2 ^ 53) :
    parseFloatR (n : Rat) = n := by
  have hq0 : ((n : Rat)) ≠ 0 := by
    simp only [ne_eq, Nat.cast_eq_zero]
    omega
  have hqneg : ¬((n : Rat) < 0) := by
    push_neg
    positivity
  simp only [parseFloatR, if_neg hq0, if_neg hqneg]
  have hb1 : natLog2 1 = 0 := rfl
  have he : ratLog2 (n : Rat) = (natLog2 n : Int) := by
    simp only [ratLog2, Rat.num_natCast, Rat.den_natCast, Int.natAbs_ofNat, hb1]
    rw [if_pos]
    · simp
    · simpa using (natLog2_spec n h1).1
  rw [he]
  have ha52 : natLog2 n ≤ 52 := by
    have hl := (natLog2_spec n h1).1
    by_contra hgt
    push_neg at hgt
    have h53 : (2 : Nat) ^ 53 ≤ 2 ^ natLog2 n := Nat.pow_le_pow_right (by norm_num) hgt
    omega
  set a := natLog2 n with ha
  have hcast : (n : Rat) * (2 : Rat) ^ ((52 : Int) - (a : Int)) =
      (((n * 2 ^ (52 - a) : Nat) : Int) : Rat) := by
    rw [show ((52 : Int) - (a : Int)) = ((52 - a : Nat) : Int) by omega, zpow_natCast]
    push_cast
    ring
  rw [hcast, rne_intCast]
  push_cast
  rw [mul_assoc,
    show ((2 : Rat) ^ (52 - a : Nat)) = (2 : Rat) ^ ((52 - a : Nat) : Int) from
      (zpow_natCast _ _).symm,
    ← zpow_add₀ (by norm_num : (2 : Rat) ≠ 0),
    show ((52 - a : Nat) : Int) + ((a : Int) - 52) = 0 by omega,
    zpow_zero, mul_one]

theorem updateWhere_keys (db : Db) (id : AccountId) (f : Rat → Rat) :
    (updateWhere db id f).1.map Prod.fst = db.map Prod.fst := by
  induction db with
  | nil => rfl
  | cons hd rest ih =>
    obtain ⟨i, b⟩ := hd
    simp only [updateWhere]
    split_ifs with h <;> simp [ih]

theorem updateWhere_wf (db : Db) (id : AccountId) (f : Rat → Rat)
    (h : Db.wf db) : Db.wf (updateWhere db id f).1 := by
  unfold Db.wf at h ⊢
  rw [updateWhere_keys]
  exact h

theorem lookupBal_updateWhere_self (db : Db) (id : AccountId) (f : Rat → Rat) :
    lookupBal (updateWhere db id f).1 id = (lookupBal db id).map f := by
  induction db with
  | nil => rfl
  | cons hd rest ih =>
    obtain ⟨i, b⟩ := hd
    simp only [updateWhere, lookupBal]
    by_cases h : i = id
    · subst h
      simp [lookupBal]
    · simp [lookupBal, if_neg h, ih]

theorem lookupBal_updateWhere_other (db : Db) (id : AccountId) (f : Rat → Rat)
    (j : AccountId) (hj : j ≠ id) :
    lookupBal (updateWhere db id f).1 j = lookupBal db j := by
  induction db with
  | nil => rfl
  | cons hd rest ih =>
    obtain ⟨i, b⟩ := hd
    simp only [updateWhere, lookupBal]
    by_cases h : i = id
    · subst h
      have hij : i ≠ j := fun hc => hj hc.symm
      simp [lookupBal, if_neg hij, ih]
    · by_cases h2 : i = j
      · subst h2
        simp [lookupBal, if_neg h]
      · simp [lookupBal, if_neg h2, if_neg h, ih]

theorem updateWhere_rows_nil (db : Db) (id : AccountId) (f : Rat → Rat)
    (h : id ∉ db.map Prod.fst) : (updateWhere db id f).2 = [] := by
  induction db with
  | nil => rfl
  | cons hd rest ih =>
    obtain ⟨i, b⟩ := hd
    simp only [List.map_cons, List.mem_cons, not_or] at h
    simp only [updateWhere]
    rw [if_neg (fun hc => h.1 hc.symm)]
    exact ih h.2

theorem updateWhere_rows (db : Db) (id : AccountId) (f : Rat → Rat)
    (h : Db.wf db) : (updateWhere db id f).2 = ((lookupBal db id).map f).toList := by
  induction db with
  | nil => rfl
  | cons hd rest ih =>
    obtain ⟨i, b⟩ := hd
    unfold Db.wf at h
    simp only [List.map_cons, List.nodup_cons] at h
    simp only [updateWhere, lookupBal]
    by_cases hi : i = id
    · subst hi
      simp [updateWhere_rows_nil rest i f h.1]
    · simp [if_neg hi, ih h.2]

theorem handlerLoop_err_step (envs : Nat → AttemptEnv) (request : Request)
    (fuel k : Nat) (e : JsError)
    (h : runAttempt (envs k) request = .error e) :
    handlerLoop envs request (fuel + 1) k =
      if isOccError e then handlerLoop envs request fuel (k + 1)
      else some (.error e, k + 1) := by
  simp only [handlerLoop, h]

theorem handlerLoop_ok_step (envs : Nat → AttemptEnv) (request : Request)
    (fuel k : Nat) (r : Db × Rat)
    (h : runAttempt (envs k) request = .ok r) :
    handlerLoop envs request (fuel + 1) k = some (.ok r, k + 1) := by
  simp only [handlerLoop, h]

theorem handlerLoop_ok_elim (envs : Nat → AttemptEnv) (request : Request) :
    ∀ fuel k r a, handlerLoop envs request fuel k = some (.ok r, a) →
      k < a ∧ runAttempt (envs (a - 1)) request = .ok r ∧
      ∀ i, k ≤ i → i < a - 1 →
        ∃ e, runAttempt (envs i) request = .error e ∧ isOccError e = true := by
  intro fuel
  induction fuel with
  | zero => intro k r a h; exact absurd h (by simp [handlerLoop])
  | succ fuel ih =>
    intro k r a h
    rcases hr : runAttempt (envs k) request with e | r0
    · rw [handlerLoop_err_step envs request fuel k e hr] at h
      rcases hocc : isOccError e with hfalse | htrue
      · rw [hocc] at h
        simp at h
      · rw [hocc] at h
        simp only [if_pos] at h
        obtain ⟨hlt, hok, hall⟩ := ih (k + 1) r a h
        refine ⟨by omega, hok, ?_⟩
        intro i hki hia
        rcases Nat.eq_or_lt_of_le hki with heq | hlt2
        · exact ⟨e, heq ▸ hr, hocc⟩
        · exact hall i (by omega) hia
    · rw [handlerLoop_ok_step envs request fuel k r0 hr] at h
      injection h with h1
      injection h1 with h2 h3
      injection h2 with h4
      subst h4
      subst h3
      refine ⟨by omega, by simpa using hr, ?_⟩
      intro i hki hia
      omega

theorem handlerLoop_all_conflict (envs : Nat → AttemptEnv) (request : Request) :
    ∀ fuel k,
      (∀ i, k ≤ i → ∃ e, runAttempt (envs i) request = .error e ∧ isOccError e = true) →
      handlerLoop envs request fuel k = none := by
  intro fuel
  induction fuel with
  | zero => intro k _; rfl
  | succ fuel ih =>
    intro k h
    obtain ⟨e, he, hocc⟩ := h k le_rfl
    rw [handlerLoop_err_step envs request fuel k e he, hocc, if_pos rfl]
    exact ih (k + 1) (fun i hi => h i (by omega))

theorem handlerLoop_first_nonconflict (envs : Nat → AttemptEnv) (request : Request) :
    ∀ n k fuel,
      (∀ i, k ≤ i → i < k + n →
        ∃ e, runAttempt (envs i) request = .error e ∧ isOccError e = true) →
      (∀ e, runAttempt (envs (k + n)) request = .error e → isOccError e = false) →
      handlerLoop envs request (fuel + n + 1) k =
        some (runAttempt (envs (k + n)) request, k + n + 1) := by
  intro n
  induction n with
  | zero =>
    intro k fuel _ hnc
    rcases hr : runAttempt (envs (k + 0)) request with e | r
    · have hocc : isOccError e = false := hnc e hr
      rw [show k + 0 = k from rfl] at hr
      rw [handlerLoop_err_step envs request (fuel + 0) k e hr, hocc]
      simp
    · rw [show k + 0 = k from rfl] at hr
      rw [handlerLoop_ok_step envs request (fuel + 0) k r hr]
  | succ n ih =>
    intro k fuel hall hnc
    obtain ⟨e, he, hocc⟩ := hall k le_rfl (by omega)
    rw [show fuel + (n + 1) + 1 = (fuel + n + 1) + 1 by omega]
    rw [handlerLoop_err_step envs request (fuel + n + 1) k e he, hocc, if_pos rfl]
    have hall2 : ∀ i, k + 1 ≤ i → i < (k + 1) + n →
        ∃ e2, runAttempt (envs i) request = .error e2 ∧ isOccError e2 = true := by
      intro i h1 h2
      exact hall i (by omega) (by omega)
    have hnc2 : ∀ e2, runAttempt (envs ((k + 1) + n)) request = .error e2 →
        isOccError e2 = false := by
      intro e2 h2
      exact hnc e2 (by rw [show k + (n + 1) = (k + 1) + n by omega]; exact h2)
    have := ih (k + 1) fuel hall2 hnc2
    rw [this]
    rw [show (k + 1) + n = k + (n + 1) by omega]

theorem executeTransfer_success_core (env : AttemptEnv) (request : Request)
    (hwf : Db.wf env.db)
    (hne : request.payer_id ≠ request.payee_id)
    (hs1 : env.stmt1Error = none) (hs2 : env.stmt2Error = none)
    (bp bq : Rat)
    (hbp : lookupBal env.db request.payer_id = some bp)
    (hbq : lookupBal env.db request.payee_id = some bq)
    (hpos : 0 ≤ bp - request.amount) :
    ∃ db2,
      executeTransfer env request = .ok (db2, parseFloatR (bp - request.amount)) ∧
      Db.wf db2 ∧
      lookupBal db2 request.payer_id = some (bp - request.amount) ∧
      lookupBal db2 request.payee_id = some (bq + request.amount) ∧
      ∀ j, j ≠ request.payer_id → j ≠ request.payee_id →
        lookupBal db2 j = lookupBal env.db j := by
  have hne2 : request.payee_id ≠ request.payer_id := fun h => hne h.symm
  have hrows1 : (updateWhere env.db request.payer_id (fun b => b - request.amount)).2 =
      [bp - request.amount] := by
    rw [updateWhere_rows _ _ _ hwf, hbp]
    rfl
  have hwf1 : Db.wf (updateWhere env.db request.payer_id (fun b => b - request.amount)).1 :=
    updateWhere_wf _ _ _ hwf
  have hbq1 : lookupBal (updateWhere env.db request.payer_id
      (fun b => b - request.amount)).1 request.payee_id = some bq := by
    rw [lookupBal_updateWhere_other _ _ _ _ hne2]
    exact hbq
  have hbp1 : lookupBal (updateWhere env.db request.payer_id
      (fun b => b - request.amount)).1 request.payer_id = some (bp - request.amount) := by
    rw [lookupBal_updateWhere_self, hbp]
    rfl
  have hrows2 : (updateWhere (updateWhere env.db request.payer_id
        (fun b => b - request.amount)).1 request.payee_id
        (fun b => b + request.amount)).2 = [bq + request.amount] := by
    rw [updateWhere_rows _ _ _ hwf1, hbq1]
    rfl
  have hnneg : ¬(parseFloatR (bp - request.amount) < 0) := by
    rw [parseFloatR_neg_iff]
    linarith
  refine ⟨(updateWhere (updateWhere env.db request.payer_id
      (fun b => b - request.amount)).1 request.payee_id
      (fun b => b + request.amount)).1, ?_, ?_, ?_, ?_, ?_⟩
  · simp only [executeTransfer, hs1, hs2, hrows1, hrows2, if_neg hnneg, List.length_cons,
      List.length_nil]
    simp
  · exact updateWhere_wf _ _ _ hwf1
  · rw [lookupBal_updateWhere_other _ _ _ _ hne, hbp1]
  · rw [lookupBal_updateWhere_self, hbq1]
    rfl
  · intro j hj1 hj2
    rw [lookupBal_updateWhere_other _ _ _ _ hj2, lookupBal_updateWhere_other _ _ _ _ hj1]

theorem runAttempt_success_core (env : AttemptEnv) (request : Request)
    (hwf : Db.wf env.db)
    (hne : request.payer_id ≠ request.payee_id)
    (hs1 : env.stmt1Error = none) (hs2 : env.stmt2Error = none)
    (hcm : env.commitError = none)
    (bp bq : Rat)
    (hbp : lookupBal env.db request.payer_id = some bp)
    (hbq : lookupBal env.db request.payee_id = some bq)
    (hpos : 0 ≤ bp - request.amount) :
    ∃ db2,
      runAttempt env request = .ok (db2, parseFloatR (bp - request.amount)) ∧
      Db.wf db2 ∧
      lookupBal db2 request.payer_id = some (bp - request.amount) ∧
      lookupBal db2 request.payee_id = some (bq + request.amount) ∧
      ∀ j, j ≠ request.payer_id → j ≠ request.payee_id →
        lookupBal db2 j = lookupBal env.db j := by
  obtain ⟨db2, hex, hw, h1, h2, h3⟩ :=
    executeTransfer_success_core env request hwf hne hs1 hs2 bp bq hbp hbq hpos
  exact ⟨db2, by simp only [runAttempt, hex, hcm], hw, h1, h2, h3⟩

/-- Claim C1: `executeTransfer(transactionHandle, request)` follows the
reference definition.  With the datastore raising no statement-level driver
errors: the single atomic decrement of the payer returns the new balance,
and an empty row set fails with `PayerNotFound`; a negative returned payer
balance fails with `InsufficientBalance` and the whole transaction rolls
back (`runAttempt` commits no change whatever the commit behaviour); the
atomic increment of the payee fails with `PayeeNotFound` when the number of
affected rows is not exactly 1; otherwise the payer's new balance (as the
code converts it) is returned together with the updated rows. -/
theorem C1_executeTransfer_reference (env : AttemptEnv) (request : Request)
    (hs1 : env.stmt1Error = none) (hs2 : env.stmt2Error = none) :
    ((updateWhere env.db request.payer_id (fun b => b - request.amount)).2 = [] →
      executeTransfer env request = .error .payerNotFound) ∧
    (∀ pb rest,
      (updateWhere env.db request.payer_id (fun b => b - request.amount)).2 =
        pb :: rest →
      (pb < 0 →
        executeTransfer env request =
          .error (.insufficientBalance (parseFloatR pb)) ∧
        ∀ ce, runAttempt { env with commitError := ce } request =
          .error (.insufficientBalance (parseFloatR pb))) ∧
      (0 ≤ pb →
        ((updateWhere (updateWhere env.db request.payer_id
            (fun b => b - request.amount)).1 request.payee_id
            (fun b => b + request.amount)).2.length ≠ 1 →
          executeTransfer env request = .error .payeeNotFound) ∧
        ((updateWhere (updateWhere env.db request.payer_id
            (fun b => b - request.amount)).1 request.payee_id
            (fun b => b + request.amount)).2.length = 1 →
          executeTransfer env request =
            .ok ((updateWhere (updateWhere env.db request.payer_id
              (fun b => b - request.amount)).1 request.payee_id
              (fun b => b + request.amount)).1, parseFloatR pb)))) := by
  refine ⟨?_, ?_⟩
  · intro hrow
    simp only [executeTransfer, hs1, hrow]
  · intro pb rest hrow
    refine ⟨?_, ?_⟩
    · intro hneg
      have hpf : parseFloatR pb < 0 := (parseFloatR_neg_iff pb).mpr hneg
      have hexec : executeTransfer env request =
          .error (.insufficientBalance (parseFloatR pb)) := by
        simp only [executeTransfer, hs1, hrow, if_pos hpf]
      refine ⟨hexec, ?_⟩
      intro ce
      have hexec2 : executeTransfer { env with commitError := ce } request =
          .error (.insufficientBalance (parseFloatR pb)) := by
        simp only [executeTransfer] at hexec ⊢
        exact hexec
      simp only [runAttempt, hexec2]
    · intro hnn
      have hpf : ¬(parseFloatR pb < 0) := by
        rw [parseFloatR_neg_iff]
        linarith
      refine ⟨?_, ?_⟩
      · intro hlen
        simp only [executeTransfer, hs1, hrow, if_neg hpf, hs2, if_pos hlen]
      · intro hlen
        have hlen2 : ¬((updateWhere (updateWhere env.db request.payer_id
            (fun b => b - request.amount)).1 request.payee_id
            (fun b => b + request.amount)).2.length ≠ 1) := by
          omega
        simp only [executeTransfer, hs1, hrow, if_neg hpf, hs2, if_neg hlen2]

theorem C1_executeTransfer_reference_witness :
    executeTransfer { db := [("a", 100), ("b", 50)] } (⟨"a", "b", 10⟩ : Request) =
      .ok ([("a", 90), ("b", 60)], parseFloatR 90) ∧
    parseFloatR 90 = 90 := by
  have h90 : parseFloatR 90 = 90 := by
    have h := parseFloatR_natCast 90 (by norm_num) (by norm_num)
    push_cast at h
    exact h
  have hrow1 : (updateWhere ([("a", 100), ("b", 50)] : Db) "a"
      (fun b => b - (10 : Rat))).2 = (90 : Rat) :: [] := by
    simp [updateWhere]
    norm_num
  have h := C1_executeTransfer_reference
      { db := [("a", 100), ("b", 50)] } (⟨"a", "b", 10⟩ : Request) rfl rfl
  have h2 := ((h.2 90 [] hrow1).2 (by norm_num)).2
  have h3 := h2 (by simp [updateWhere])
  simp only [updateWhere] at h3
  norm_num at h3
  exact ⟨h3, h90⟩

/-- Claim C2: `isOccError` is true exactly on the driver error carrying
SQLSTATE `40001` (the standard serialization-failure code), and the retry
loop absorbs exactly these errors: an attempt that raises an error is
retried if and only if the classifier is true, and any other error
terminates the loop and is surfaced verbatim by `handler`. -/
theorem C2_conflict_classification_and_retry :
    (∀ e, isOccError e = true ↔ e = .postgres "40001") ∧
    (∀ (envs : Nat → AttemptEnv) (request : Request) (fuel k : Nat) (e : JsError),
      runAttempt (envs k) request = .error e →
      handlerLoop envs request (fuel + 1) k =
        if isOccError e then handlerLoop envs request fuel (k + 1)
        else some (.error e, k + 1)) ∧
    (∀ (envs : Nat → AttemptEnv) (event : Request) (fuel : Nat) (e : JsError) (a : Nat),
      event.payer_id ≠ event.payee_id →
      handlerLoop envs event fuel 0 = some (.error e, a) →
      handler envs event fuel =
        some { result := .error e, connectionObtained := true,
               attemptsMade := a, committed := none }) := by
  refine ⟨?_, ?_, ?_⟩
  · intro e
    cases e <;> simp [isOccError]
  · intro envs request fuel k e h
    exact handlerLoop_err_step envs request fuel k e h
  · intro envs event fuel e a hne hl
    simp only [handler, if_neg hne, hl]

theorem C2_conflict_classification_and_retry_witness :
    isOccError (.postgres "40001") = true ∧
    handlerLoop (fun _ => { db := [] }) (⟨"a", "b", 1⟩ : Request) 1 0 =
      some (.error .payerNotFound, 1) ∧
    handler (fun _ => { db := [] }) (⟨"a", "b", 1⟩ : Request) 1 =
      some { result := .error .payerNotFound, connectionObtained := true,
             attemptsMade := 1, committed := none } := by
  have h := C2_conflict_classification_and_retry
  have hrun : runAttempt ((fun _ => ({ db := [] } : AttemptEnv)) 0)
      (⟨"a", "b", 1⟩ : Request) = .error .payerNotFound := by
    simp [runAttempt, executeTransfer, updateWhere]
  have hl := h.2.1 (fun _ => { db := [] }) ⟨"a", "b", 1⟩ 0 0 .payerNotFound hrun
  have hl2 : handlerLoop (fun _ => ({ db := [] } : AttemptEnv))
      (⟨"a", "b", 1⟩ : Request) 1 0 = some (.error .payerNotFound, 1) := by
    simpa [isOccError] using hl
  refine ⟨(h.1 (.postgres "40001")).mpr rfl, hl2, ?_⟩
  exact h.2.2 _ _ 1 .payerNotFound 1 (by simp) hl2

/-- Claim C4: a request whose `payer_id` equals its `payee_id` is rejected
with the invalid-request error before any datastore interaction: no
connection is obtained, no transaction is begun, nothing is committed, and
the outcome does not depend on the datastore environments at all. -/
theorem C4_same_account_rejected (envs : Nat → AttemptEnv) (event : Request)
    (fuel : Nat) (h : event.payer_id = event.payee_id) :
    handler envs event fuel =
      some { result := .error .invalidRequest, connectionObtained := false,
             attemptsMade := 0, committed := none } := by
  simp only [handler, if_pos h]

theorem C4_same_account_rejected_witness :
    handler (fun _ => { db := [("a", 100)] }) (⟨"a", "a", 5⟩ : Request) 7 =
      some { result := .error .invalidRequest, connectionObtained := false,
             attemptsMade := 0, committed := none } :=
  C4_same_account_rejected (fun _ => { db := [("a", 100)] }) ⟨"a", "a", 5⟩ 7 rfl

/-- Claim C5: the retry loop has no iteration cap.  If every attempt raises
a serialization-conflict error, the loop runs forever (no fuel suffices);
and if the first `n` attempts all conflict while attempt `n + 1` yields any
non-conflict outcome, the loop terminates right there with that outcome —
for every `n`, so no cap is imposed. -/
theorem C5_unbounded_retry (envs : Nat → AttemptEnv) (request : Request) :
    ((∀ i, ∃ e, runAttempt (envs i) request = .error e ∧ isOccError e = true) →
      ∀ fuel k, handlerLoop envs request fuel k = none) ∧
    (∀ n,
      (∀ i, i < n → ∃ e, runAttempt (envs i) request = .error e ∧ isOccError e = true) →
      (∀ e, runAttempt (envs n) request = .error e → isOccError e = false) →
      ∀ fuel, n < fuel →
        handlerLoop envs request fuel 0 = some (runAttempt (envs n) request, n + 1)) := by
  constructor
  · intro h fuel k
    exact handlerLoop_all_conflict envs request fuel k (fun i _ => h i)
  · intro n hall hnc fuel hfuel
    have key := handlerLoop_first_nonconflict envs request n 0 (fuel - n - 1)
      (fun i _ hi => hall i (by omega))
      (fun e he => hnc e (by rw [zero_add] at he; exact he))
    rw [show fuel = fuel - n - 1 + n + 1 by omega]
    simpa using key

theorem C5_unbounded_retry_witness :
    handlerLoop (fun _ => { db := [], stmt1Error := some (.postgres "40001") })
      (⟨"a", "b", 1⟩ : Request) 5 0 = none ∧
    handlerLoop (fun _ => { db := [("a", 100), ("b", 50)] })
      (⟨"a", "b", 10⟩ : Request) 1 0 =
      some (.ok ([("a", 90), ("b", 60)], parseFloatR 90), 1) := by
  have hconf : ∀ i : Nat, ∃ e,
      runAttempt ((fun _ => ({ db := [], stmt1Error := some (.postgres "40001") } :
        AttemptEnv)) i) (⟨"a", "b", 1⟩ : Request) = .error e ∧ isOccError e = true := by
    intro i
    refine ⟨.postgres "40001", ?_, by simp [isOccError]⟩
    simp [runAttempt, executeTransfer]
  have hok : runAttempt ((fun _ => ({ db := [("a", 100), ("b", 50)] } : AttemptEnv)) 0)
      (⟨"a", "b", 10⟩ : Request) = .ok ([("a", 90), ("b", 60)], parseFloatR 90) := by
    norm_num [runAttempt, executeTransfer, updateWhere, parseFloatR_neg_iff]
    simp
  constructor
  · exact (C5_unbounded_retry _ _).1 hconf 5 0
  · have h2 := (C5_unbounded_retry (fun _ => { db := [("a", 100), ("b", 50)] })
      (⟨"a", "b", 10⟩ : Request)).2 0 (by omega)
      (by intro e he; rw [hok] at he; exact Except.noConfusion he) 1 (by omega)
    rw [hok] at h2
    exact h2

/-- Claim C6 as stated is false: an error raised by `executeTransfer`
itself is not always propagated.  In `cexEnvs` the first attempt's payer
statement — inside `executeTransfer`, not at commit — raises the
serialization-failure error, yet the handler retries and returns success
with `attempts = 2` instead of terminating with that failure. -/
theorem C6_counterexample :
    executeTransfer (cexEnvs 0) (⟨"a", "b", 10⟩ : Request) =
      .error (.postgres "40001") ∧
    handler cexEnvs (⟨"a", "b", 10⟩ : Request) 3 =
      some { result := .ok { payer_balance := parseFloatR 90, attempts := 2 },
             connectionObtained := true, attemptsMade := 2,
             committed := some [("a", 90), ("b", 60)] } := by
  have hexec : executeTransfer (cexEnvs 0) (⟨"a", "b", 10⟩ : Request) =
      .error (.postgres "40001") := by
    simp [cexEnvs, executeTransfer]
  have hrun0 : runAttempt (cexEnvs 0) (⟨"a", "b", 10⟩ : Request) =
      .error (.postgres "40001") := by
    simp only [runAttempt, hexec]
  have hrun1 : runAttempt (cexEnvs 1) (⟨"a", "b", 10⟩ : Request) =
      .ok ([("a", 90), ("b", 60)], parseFloatR 90) := by
    norm_num [cexEnvs, runAttempt, executeTransfer, updateWhere, parseFloatR_neg_iff]
    simp
  have hocc : isOccError (.postgres "40001") = true := by
    simp [isOccError]
  have hl : handlerLoop cexEnvs (⟨"a", "b", 10⟩ : Request) 3 0 =
      some (.ok ([("a", 90), ("b", 60)], parseFloatR 90), 2) := by
    rw [show (3 : Nat) = 2 + 1 from rfl,
        handlerLoop_err_step cexEnvs _ 2 0 _ hrun0, hocc, if_pos rfl,
        show (2 : Nat) = 1 + 1 from rfl,
        handlerLoop_ok_step cexEnvs _ 1 1 _ hrun1]
  refine ⟨hexec, ?_⟩
  simp only [handler]
  rw [if_neg (by simp : ¬("a" : String) = "b"), hl]

/-- Claim C6, amended: an attempt in which `executeTransfer` itself fails
propagates the error and terminates the loop if and only if the error is
not a serialization failure; a 40001 error raised inside `executeTransfer`
triggers another iteration exactly like a commit-time conflict, because the
code classifies the caught error by its code alone, not by where it
arose. -/
theorem C6_executeTransfer_error_policy (envs : Nat → AttemptEnv)
    (request : Request) (fuel k : Nat) (e : JsError)
    (h : executeTransfer (envs k) request = .error e) :
    handlerLoop envs request (fuel + 1) k =
      if isOccError e then handlerLoop envs request fuel (k + 1)
      else some (.error e, k + 1) := by
  have hr : runAttempt (envs k) request = .error e := by
    simp only [runAttempt, h]
  exact handlerLoop_err_step envs request fuel k e hr

theorem C6_executeTransfer_error_policy_witness :
    handlerLoop cexEnvs (⟨"a", "b", 10⟩ : Request) (2 + 1) 0 =
      if isOccError (.postgres "40001") then
        handlerLoop cexEnvs (⟨"a", "b", 10⟩ : Request) 2 1
      else some (.error (.postgres "40001"), 1) := by
  have hexec : executeTransfer (cexEnvs 0) (⟨"a", "b", 10⟩ : Request) =
      .error (.postgres "40001") := by
    simp [cexEnvs, executeTransfer]
  exact C6_executeTransfer_error_policy cexEnvs ⟨"a", "b", 10⟩ 2 0
    (.postgres "40001") hexec

/-- Claim C8: on every successful return the `attempts` field is at least 1
and equals the number of transaction attempts made: the last attempt
committed (its database and balance are what the response reports) and
every one of the `attempts - 1` earlier attempts failed with a
serialization-conflict error. -/
theorem C8_attempts_accounting (envs : Nat → AttemptEnv) (event : Request)
    (fuel : Nat) (out : HandlerOutput) (resp : Response)
    (h : handler envs event fuel = some out) (hres : out.result = .ok resp) :
    1 ≤ resp.attempts ∧ resp.attempts = out.attemptsMade ∧
    (∃ r, runAttempt (envs (resp.attempts - 1)) event = .ok r ∧
      out.committed = some r.1 ∧ resp.payer_balance = r.2) ∧
    (∀ i, i < resp.attempts - 1 →
      ∃ e, runAttempt (envs i) event = .error e ∧ isOccError e = true) := by
  by_cases hpp : event.payer_id = event.payee_id
  · simp only [handler, if_pos hpp] at h
    injection h with h1
    rw [← h1] at hres
    exact Except.noConfusion hres
  · simp only [handler, if_neg hpp] at h
    rcases hl : handlerLoop envs event fuel 0 with _ | ⟨res, a⟩
    · rw [hl] at h
      exact Option.noConfusion h
    · rw [hl] at h
      rcases res with e | r
      · injection h with h1
        rw [← h1] at hres
        exact Except.noConfusion hres
      · injection h with h1
        subst h1
        simp only [Except.ok.injEq] at hres
        subst hres
        obtain ⟨hlt, hok, hall⟩ := handlerLoop_ok_elim envs event fuel 0 r a hl
        exact ⟨hlt, rfl, ⟨r, hok, rfl, rfl⟩,
          fun i hi => hall i (Nat.zero_le i) hi⟩

theorem C8_attempts_accounting_witness :
    1 ≤ okResp.attempts ∧ okResp.attempts = okOut.attemptsMade ∧
    (∃ r, runAttempt (okEnvs (okResp.attempts - 1)) (⟨"a", "b", 10⟩ : Request) =
      .ok r ∧ okOut.committed = some r.1 ∧ okResp.payer_balance = r.2) ∧
    (∀ i, i < okResp.attempts - 1 →
      ∃ e, runAttempt (okEnvs i) (⟨"a", "b", 10⟩ : Request) = .error e ∧
        isOccError e = true) := by
  have hok : runAttempt (okEnvs 0) (⟨"a", "b", 10⟩ : Request) =
      .ok ([("a", 90), ("b", 60)], parseFloatR 90) := by
    norm_num [okEnvs, runAttempt, executeTransfer, updateWhere, parseFloatR_neg_iff]
    simp
  have hhandler : handler okEnvs (⟨"a", "b", 10⟩ : Request) 1 = some okOut := by
    simp only [handler]
    rw [if_neg (by simp : ¬("a" : String) = "b"),
        show (1 : Nat) = 0 + 1 from rfl, handlerLoop_ok_step okEnvs _ 0 0 _ hok]
    rfl
  exact C8_attempts_accounting okEnvs ⟨"a", "b", 10⟩ 1 okOut okResp hhandler rfl

theorem getConnectionRuns_cached (m c k : Nat) :
    getConnectionRuns m { cachedClient := some c, clientsCreated := k } =
      (List.replicate m c, { cachedClient := some c, clientsCreated := k }) := by
  induction m with
  | zero => rfl
  | succ m ih => simp [getConnectionRuns, getConnection, ih, List.replicate]

/-- Claim C9: `getConnection` is idempotent within a process lifetime: a
second call returns the same handle and leaves the module state unchanged,
and starting from the fresh process state any sequence of `n ≥ 1` calls
creates exactly one client object and always hands back that one client. -/
theorem C9_connection_cached_once (s : ProcState) (n : Nat) (h : 1 ≤ n) :
    getConnection ((getConnection s).2) =
      ((getConnection s).1, (getConnection s).2) ∧
    (getConnectionRuns n initialProcState).2 =
      { cachedClient := some 0, clientsCreated := 1 } ∧
    (∀ hdl ∈ (getConnectionRuns n initialProcState).1, hdl = 0) := by
  obtain ⟨m, rfl⟩ : ∃ m, n = m + 1 := ⟨n - 1, by omega⟩
  have h1 : getConnection initialProcState =
      (0, { cachedClient := some 0, clientsCreated := 1 }) := rfl
  have hruns : getConnectionRuns (m + 1) initialProcState =
      ((0 : Nat) :: List.replicate m 0,
       { cachedClient := some 0, clientsCreated := 1 }) := by
    simp only [getConnectionRuns, h1, getConnectionRuns_cached]
  refine ⟨?_, ?_, ?_⟩
  · rcases hs : s.cachedClient with _ | c
    · simp [getConnection, hs]
    · simp [getConnection, hs]
  · rw [hruns]
  · rw [hruns]
    intro hdl hmem
    rcases List.mem_cons.mp hmem with h0 | h0
    · exact h0
    · exact List.eq_of_mem_replicate h0

theorem C9_connection_cached_once_witness :
    getConnection ((getConnection initialProcState).2) =
      ((getConnection initialProcState).1, (getConnection initialProcState).2) ∧
    (getConnectionRuns 3 initialProcState).2 =
      { cachedClient := some 0, clientsCreated := 1 } ∧
    (∀ hdl ∈ (getConnectionRuns 3 initialProcState).1, hdl = 0) :=
  C9_connection_cached_once initialProcState 3 (by norm_num)

/-- Claim C3: for every valid request with distinct existing payer and
payee and payer balance at least `amount ≥ 0`, a committed transfer
decrements the payer by exactly `amount`, increments the payee by exactly
`amount`, leaves the sum of the two balances unchanged, and leaves the
payer's balance non-negative. -/
theorem C3_successful_transfer_preserves_sum (env : AttemptEnv)
    (request : Request) (bp bq : Rat) (hwf : Db.wf env.db)
    (hne : request.payer_id ≠ request.payee_id)
    (hbp : lookupBal env.db request.payer_id = some bp)
    (hbq : lookupBal env.db request.payee_id = some bq)
    (_hamt : 0 ≤ request.amount) (hle : request.amount ≤ bp)
    (hs1 : env.stmt1Error = none) (hs2 : env.stmt2Error = none)
    (hcm : env.commitError = none) :
    ∃ db2, runAttempt env request = .ok (db2, parseFloatR (bp - request.amount)) ∧
      lookupBal db2 request.payer_id = some (bp - request.amount) ∧
      lookupBal db2 request.payee_id = some (bq + request.amount) ∧
      (bp - request.amount) + (bq + request.amount) = bp + bq ∧
      0 ≤ bp - request.amount := by
  obtain ⟨db2, hrun, hw, h1, h2, h3⟩ :=
    runAttempt_success_core env request hwf hne hs1 hs2 hcm bp bq hbp hbq
      (by linarith)
  exact ⟨db2, hrun, h1, h2, by ring, by linarith⟩

theorem C3_successful_transfer_preserves_sum_witness :
    ∃ db2, runAttempt ({ db := [("a", 100), ("b", 50)] } : AttemptEnv)
        (⟨"a", "b", 10⟩ : Request) = .ok (db2, parseFloatR (100 - 10)) ∧
      lookupBal db2 "a" = some (100 - 10) ∧
      lookupBal db2 "b" = some (50 + 10) ∧
      ((100 : Rat) - 10) + (50 + 10) = 100 + 50 ∧
      (0 : Rat) ≤ 100 - 10 := by
  exact C3_successful_transfer_preserves_sum
    { db := [("a", 100), ("b", 50)] } ⟨"a", "b", 10⟩ 100 50
    (by simp [Db.wf]) (by simp) (by simp [lookupBal]) (by simp [lookupBal])
    (by norm_num) (by norm_num) rfl rfl rfl

/-- Claim C10: the handler never validates that `amount` is positive.  For
a request with a negative amount whose (distinct) payer and payee both
exist — with the payer holding any non-negative balance — the transfer
commits, increasing the payer by `|amount|` and decreasing the payee by
`|amount|`: the direction is silently reversed, the sum invariant still
holds, and no insufficient-balance check guards the payee, whose committed
balance may be negative. -/
theorem C10_negative_amount_reverses_transfer (env : AttemptEnv)
    (request : Request) (bp bq : Rat) (hwf : Db.wf env.db)
    (hne : request.payer_id ≠ request.payee_id)
    (hbp : lookupBal env.db request.payer_id = some bp)
    (hbq : lookupBal env.db request.payee_id = some bq)
    (hneg : request.amount < 0) (hbp0 : 0 ≤ bp)
    (hs1 : env.stmt1Error = none) (hs2 : env.stmt2Error = none)
    (hcm : env.commitError = none) :
    ∃ db2, runAttempt env request = .ok (db2, parseFloatR (bp - request.amount)) ∧
      lookupBal db2 request.payer_id = some (bp + |request.amount|) ∧
      lookupBal db2 request.payee_id = some (bq - |request.amount|) ∧
      (bp + |request.amount|) + (bq - |request.amount|) = bp + bq := by
  have habs : |request.amount| = -request.amount := abs_of_neg hneg
  obtain ⟨db2, hrun, hw, h1, h2, h3⟩ :=
    runAttempt_success_core env request hwf hne hs1 hs2 hcm bp bq hbp hbq
      (by linarith)
  refine ⟨db2, hrun, ?_, ?_, by ring⟩
  · rw [habs, ← sub_eq_add_neg]
    exact h1
  · rw [habs, sub_neg_eq_add]
    exact h2

theorem C10_negative_amount_reverses_transfer_witness :
    (∃ db2, runAttempt ({ db := [("a", 100), ("b", 0)] } : AttemptEnv)
        (⟨"a", "b", -5⟩ : Request) = .ok (db2, parseFloatR (100 - (-5))) ∧
      lookupBal db2 "a" = some (100 + |(-5 : Rat)|) ∧
      lookupBal db2 "b" = some (0 - |(-5 : Rat)|) ∧
      ((100 : Rat) + |(-5 : Rat)|) + (0 - |(-5 : Rat)|) = 100 + 0) ∧
    (0 : Rat) - |(-5 : Rat)| < 0 := by
  constructor
  · exact C10_negative_amount_reverses_transfer
      { db := [("a", 100), ("b", 0)] } ⟨"a", "b", -5⟩ 100 0
      (by simp [Db.wf]) (by simp) (by simp [lookupBal]) (by simp [lookupBal])
      (by norm_num) (by norm_num) rfl rfl rfl
  · norm_num

theorem parseFloatR_tie_example :
    parseFloatR (9007199254740993 : Rat) = 9007199254740992 := by
  have hq0 : ((9007199254740993 : Rat)) ≠ 0 := by norm_num
  have hqneg : ¬((9007199254740993 : Rat) < 0) := by norm_num
  simp only [parseFloatR, if_neg hq0, if_neg hqneg]
  have hlog : natLog2 9007199254740993 = 53 := by decide
  have hlog1 : natLog2 1 = 0 := by decide
  have he : ratLog2 (9007199254740993 : Rat) = 53 := by
    have hab : Int.natAbs 9007199254740993 = 9007199254740993 := rfl
    simp only [ratLog2, Rat.num_ofNat, Rat.den_ofNat, hlog1, hab]
    rw [hlog]
    norm_num
  rw [he]
  have hm : (9007199254740993 : Rat) * (2 : Rat) ^ ((52 : Int) - 53) =
      9007199254740993 / 2 := by
    norm_num
  rw [hm]
  have hfl : ⌊(9007199254740993 : Rat) / 2⌋ = 4503599627370496 := by norm_num
  have hrne : rne ((9007199254740993 : Rat) / 2) = 4503599627370496 := by
    simp only [rne, hfl]
    norm_num
  rw [hrne]
  norm_num

/-- Claim C7 fails on the code: the response balance is not always the
exact decimal value of the payer's post-commit balance, because the code
routes it through JavaScript `parseFloat` (binary64).  With the payer at
9007199254740994 (2^53 + 2) and amount 1, the datastore commits the exact
payer balance 9007199254740993 = 2^53 + 1, but the attempt returns
9007199254740992: one unit of precision is lost. -/
theorem C7_parseFloat_loses_precision :
    runAttempt ({ db := [("a", 9007199254740994), ("b", 0)] } : AttemptEnv)
        (⟨"a", "b", 1⟩ : Request) =
      .ok ([("a", 9007199254740993), ("b", 1)], 9007199254740992) ∧
    (9007199254740992 : Rat) ≠ 9007199254740993 := by
  constructor
  · have key : parseFloatR (9007199254740993 : Rat) = 9007199254740992 :=
      parseFloatR_tie_example
    norm_num [runAttempt, executeTransfer, updateWhere, parseFloatR_neg_iff, key]
    simp
  · norm_num
